import Mathlib

/-!
Verification of the cel-playground repository: a shallow embedding of its two
entry points (the template-mode program in `yaml.go` and the single-expression
program in the unnamed main file) together with a model of the CEL-subset
evaluation pipeline they drive.

The embedding follows the Go source closely:
* `Value` models the engine's dynamic value space (`ref.Val`), including the
  in-band error values produced by `types.NewErr`.
* `Native` models directly-convertible native Go data (string, int64, bool and
  `map[string]interface{}` thereof); `toEngineValue` / `fromEngineValue` model
  the engine's type adapter (`NativeToValue` and `ref.Val.Value()`).
* `dynamicValue` is the marshal/unmarshal fallback from `yaml.go`.
* `commitFunction`, `prFunction`, `collaboratorFunction` are the external
  function bindings; the external GitHub lookups and the JSON codec are
  parameters, since they are external collaborators of the repository.
* `yamlEnvDecls` / `mainEnvDecls` transcribe the two `cel.NewEnv` calls.
* `tokenize` / `parse` / `check` / `eval` model the cel-go pipeline on the
  fragment of CEL these programs exercise.
* `replaceEntry` / `scanSteps` / `expandTemplate` transcribe the template
  scanner loop of `yaml.go` (lines 160-196), with the in-memory mutation of
  the shared map made explicit.
-/

/-- CEL types appearing in the two environments (`decls.Dyn`, `decls.String`,
`decls.Int`, `decls.Bool`). -/
inductive CelType where
  | dyn : CelType
  | str : CelType
  | int : CelType
  | bool : CelType
deriving DecidableEq, Repr

/-- One declaration passed to `cel.Declarations`: either a free identifier
(`decls.NewIdent`) or a function signature (`decls.NewFunction` with a single
overload). -/
inductive Decl where
  | ident : String → CelType → Decl
  | func : String → List CelType → CelType → Decl
deriving DecidableEq, Repr

/-- The engine's dynamic value space, modelling cel-go's `ref.Val`:
strings, 64-bit integers, booleans, null, lists, string-keyed maps, and the
in-band error values built by `types.NewErr`. -/
inductive Value where
  | str : String → Value
  | int : Int → Value
  | bool : Bool → Value
  | null : Value
  | list : List Value → Value
  | map : List (String × Value) → Value
  | err : String → Value

mutual

/-- Structural equality on engine values, used by the CEL `==` operator. -/
def beqV : Value → Value → Bool
  | Value.str a, Value.str b => a == b
  | Value.int a, Value.int b => a == b
  | Value.bool a, Value.bool b => a == b
  | Value.null, Value.null => true
  | Value.list a, Value.list b => beqL a b
  | Value.map a, Value.map b => beqM a b
  | Value.err a, Value.err b => a == b
  | _, _ => false

/-- Elementwise equality of value lists. -/
def beqL : List Value → List Value → Bool
  | [], [] => true
  | a :: as, b :: bs => beqV a b && beqL as bs
  | _, _ => false

/-- Elementwise equality of map entries (key and value). -/
def beqM : List (String × Value) → List (String × Value) → Bool
  | [], [] => true
  | (k, a) :: as, (l, b) :: bs => k == l && beqV a b && beqM as bs
  | _, _ => false

end

/-- Directly-convertible native data: Go strings, int64s, bools, and
`map[string]interface{}` (modelled as an association list) whose leaves are
such scalars. -/
inductive Native where
  | str : String → Native
  | int : Int → Native
  | bool : Bool → Native
  | map : List (String × Native) → Native

mutual

/-- The adapter's direct conversion path, native → engine value
(cel-go's `NativeToValue` restricted to directly-convertible data). -/
def toEngineValue : Native → Value
  | Native.str s => Value.str s
  | Native.int n => Value.int n
  | Native.bool b => Value.bool b
  | Native.map m => Value.map (toEngineFields m)

/-- Converts each field of a native map. -/
def toEngineFields : List (String × Native) → List (String × Value)
  | [] => []
  | (k, v) :: rest => (k, toEngineValue v) :: toEngineFields rest

end

mutual

/-- Modelled from the spec: the inverse direction of the Value Adapter
(`fromEngineValue`, cel-go's `ref.Val.Value()` as used at `out.Value()`),
whose conversion code lives in the cel-go library rather than under src/.
Returns the native value when the engine value is directly convertible. -/
def fromEngineValue : Value → Option Native
  | Value.str s => some (Native.str s)
  | Value.int n => some (Native.int n)
  | Value.bool b => some (Native.bool b)
  | Value.map m =>
    match fromEngineFields m with
    | some fs => some (Native.map fs)
    | none => none
  | _ => none

/-- Converts each field of an engine map back to native data. -/
def fromEngineFields : List (String × Value) → Option (List (String × Native))
  | [] => some []
  | (k, v) :: rest =>
    match fromEngineValue v, fromEngineFields rest with
    | some n, some ns => some ((k, n) :: ns)
    | _, _ => none

end

/-- `dynamicValue` from `yaml.go` lines 48-60: marshal the external object to
JSON text, unmarshal it into a generic `map[string]interface{}`, and adapt
that map with the engine's type adapter; either codec failure yields an
in-band error value (`types.NewErr`). The JSON codec is a parameter because
`encoding/json` is an external collaborator. -/
def dynamicValue {α : Type} (marshal : α → Except String String)
    (unmarshal : String → Except String (List (String × Native)))
    (i : α) : Value :=
  match marshal i with
  | Except.error e => Value.err e
  | Except.ok b =>
    match unmarshal b with
    | Except.error e => Value.err e
    | Except.ok s => toEngineValue (Native.map s)

/-- Extracts the native string under a value, modelling the Go type assertion
`values[i].Value().(string)`; `none` models the panic on a non-string. -/
def asString : Value → Option String
  | Value.str s => some s
  | _ => none

/-- Extracts the native int64, modelling `values[i].Value().(int64)`. -/
def asInt : Value → Option Int
  | Value.int n => some n
  | _ => none

/-- The `commit` binding (`yaml.go` lines 74-87, and the identical overload in
the single-expression file): arity check first, then string extraction of the
three arguments, then the external `GetCommit` lookup whose failure message is
wrapped by `types.NewErr`, and finally `dynamicValue` on the result. The
result is `Option Value`: `none` models a type-assertion panic, `some v` a
normal return of the engine value `v`. -/
def commitFunction {α : Type} (marshal : α → Except String String)
    (unmarshal : String → Except String (List (String × Native)))
    (getCommit : String → String → String → Except String α)
    (values : List Value) : Option Value :=
  if values.length ≠ 3 then some (Value.err "invalid args") else
  match asString (values.getD 0 Value.null), asString (values.getD 1 Value.null),
      asString (values.getD 2 Value.null) with
  | some owner, some repo, some rev =>
    match getCommit owner repo rev with
    | Except.error e => some (Value.err e)
    | Except.ok c => some (dynamicValue marshal unmarshal c)
  | _, _, _ => none

/-- The `pr` binding (`yaml.go` lines 89-103): as `commit`, but the third
argument is extracted as an int64 and the lookup is `PullRequests.Get`. -/
def prFunction {α : Type} (marshal : α → Except String String)
    (unmarshal : String → Except String (List (String × Native)))
    (getPR : String → String → Int → Except String α)
    (values : List Value) : Option Value :=
  if values.length ≠ 3 then some (Value.err "invalid args") else
  match asString (values.getD 0 Value.null), asString (values.getD 1 Value.null),
      asInt (values.getD 2 Value.null) with
  | some owner, some repo, some pr =>
    match getPR owner repo pr with
    | Except.error e => some (Value.err e)
    | Except.ok c => some (dynamicValue marshal unmarshal c)
  | _, _, _ => none

/-- The `collaborator` binding (`yaml.go` lines 105-119, and the identical
overload in the single-expression file): arity check, string extraction, the
`IsCollaborator` lookup, and a boolean result. -/
def collaboratorFunction
    (isCollab : String → String → String → Except String Bool)
    (values : List Value) : Option Value :=
  if values.length ≠ 3 then some (Value.err "invalid args") else
  match asString (values.getD 0 Value.null), asString (values.getD 1 Value.null),
      asString (values.getD 2 Value.null) with
  | some owner, some repo, some user =>
    match isCollab owner repo user with
    | Except.error e => some (Value.err e)
    | Except.ok c => some (Value.bool c)
  | _, _, _ => none

/-- The declarations of the template-mode environment (`yaml.go` lines
126-149): `ce : dyn`, `commit(string,string,string) -> dyn`,
`pr(string,string,int) -> dyn`, `collaborator(string,string,string) -> bool`,
`cat : string`. -/
def yamlEnvDecls : List Decl :=
  [ Decl.ident "ce" CelType.dyn,
    Decl.func "commit" [CelType.str, CelType.str, CelType.str] CelType.dyn,
    Decl.func "pr" [CelType.str, CelType.str, CelType.int] CelType.dyn,
    Decl.func "collaborator" [CelType.str, CelType.str, CelType.str] CelType.bool,
    Decl.ident "cat" CelType.str ]

/-- The declarations of the single-expression environment (unnamed main file,
lines 55-71): `ce : dyn`, `commit(string,string,string) -> dyn`,
`collaborator(string,string,string) -> bool`. -/
def mainEnvDecls : List Decl :=
  [ Decl.ident "ce" CelType.dyn,
    Decl.func "commit" [CelType.str, CelType.str, CelType.str] CelType.dyn,
    Decl.func "collaborator" [CelType.str, CelType.str, CelType.str] CelType.bool ]

/-- Lexical tokens of the CEL fragment these programs exercise: identifiers,
string and integer literals, `==`, `.`, parentheses and commas. -/
inductive Token where
  | ident : String → Token
  | strlit : String → Token
  | intlit : Int → Token
  | eqeq : Token
  | dot : Token
  | lparen : Token
  | rparen : Token
  | comma : Token
deriving DecidableEq, Repr

/-- First character of an identifier. -/
def isIdentStart (c : Char) : Bool := c.isAlpha || c == '_'

/-- Subsequent character of an identifier. -/
def isIdentChar (c : Char) : Bool := c.isAlphanum || c == '_'

/-- Numeric value of a digit string. -/
def natOfDigits (cs : List Char) : Nat :=
  cs.foldl (fun n c => 10 * n + (c.toNat - 48)) 0

/-- Tokenizer for the CEL fragment, fuel-indexed; each step consumes at least
one character, so fuel `length + 1` always suffices. -/
def tokenize : Nat → List Char → Except String (List Token)
  | 0, _ => Except.error "Lex error: out of fuel"
  | _, [] => Except.ok []
  | Nat.succ fuel, c :: cs =>
    if c == ' ' || c == '\t' || c == '\n' || c == '\r' then
      tokenize fuel cs
    else if c == '.' then
      (tokenize fuel cs).map (fun ts => Token.dot :: ts)
    else if c == '(' then
      (tokenize fuel cs).map (fun ts => Token.lparen :: ts)
    else if c == ')' then
      (tokenize fuel cs).map (fun ts => Token.rparen :: ts)
    else if c == ',' then
      (tokenize fuel cs).map (fun ts => Token.comma :: ts)
    else if c == '=' then
      match cs with
      | '=' :: cs2 => (tokenize fuel cs2).map (fun ts => Token.eqeq :: ts)
      | _ => Except.error "Lex error: expected =="
    else if c == '\"' then
      match cs.span (fun d => d != '\"') with
      | (lit, _ :: rest) =>
        (tokenize fuel rest).map (fun ts => Token.strlit (String.mk lit) :: ts)
      | (_, []) => Except.error "Lex error: unterminated string literal"
    else if isIdentStart c then
      match cs.span isIdentChar with
      | (tl, rest) =>
        (tokenize fuel rest).map (fun ts => Token.ident (String.mk (c :: tl)) :: ts)
    else if c.isDigit then
      match cs.span Char.isDigit with
      | (tl, rest) =>
        (tokenize fuel rest).map
          (fun ts => Token.intlit (Int.ofNat (natOfDigits (c :: tl))) :: ts)
    else
      Except.error "Lex error: unexpected character"

/-- Abstract expressions of the CEL fragment: literals, identifiers, field
selection, equality, and calls of declared functions. -/
inductive Expr where
  | lit : Value → Expr
  | ident : String → Expr
  | field : Expr → String → Expr
  | eq : Expr → Expr → Expr
  | call : String → List Expr → Expr

mutual

/-- Primary expressions: `true` / `false` / `null` keywords, identifiers,
literals, and calls `f(a, b, c)`. -/
def parsePrimary : Nat → List Token → Except String (Expr × List Token)
  | 0, _ => Except.error "Parse error: out of fuel"
  | Nat.succ fuel, Token.ident n :: Token.lparen :: ts =>
    (match parseArgs fuel ts with
     | Except.error e => Except.error e
     | Except.ok (args, Token.rparen :: rest) => Except.ok (Expr.call n args, rest)
     | Except.ok (_, _) => Except.error "Parse error: expected closing parenthesis")
  | _, Token.ident n :: ts =>
    if n == "true" then Except.ok (Expr.lit (Value.bool true), ts)
    else if n == "false" then Except.ok (Expr.lit (Value.bool false), ts)
    else if n == "null" then Except.ok (Expr.lit Value.null, ts)
    else Except.ok (Expr.ident n, ts)
  | _, Token.strlit s :: ts => Except.ok (Expr.lit (Value.str s), ts)
  | _, Token.intlit n :: ts => Except.ok (Expr.lit (Value.int n), ts)
  | _, _ => Except.error "Parse error: expected expression"

/-- Comma-separated argument list, stopping in front of the closing
parenthesis (which the caller consumes). -/
def parseArgs : Nat → List Token → Except String (List Expr × List Token)
  | 0, _ => Except.error "Parse error: out of fuel"
  | Nat.succ _, Token.rparen :: ts => Except.ok ([], Token.rparen :: ts)
  | Nat.succ fuel, ts =>
    (match parseExpr fuel ts with
     | Except.error e => Except.error e
     | Except.ok (e, Token.comma :: rest) =>
       (match parseArgs fuel rest with
        | Except.error e2 => Except.error e2
        | Except.ok (es, rest2) => Except.ok (e :: es, rest2))
     | Except.ok (e, rest) => Except.ok ([e], rest))

/-- Left-associated chain of field selections `.f`. -/
def parseSelLoop : Nat → Expr → List Token → Except String (Expr × List Token)
  | 0, _, _ => Except.error "Parse error: out of fuel"
  | Nat.succ fuel, e, Token.dot :: Token.ident f :: ts =>
    parseSelLoop fuel (Expr.field e f) ts
  | Nat.succ _, e, ts => Except.ok (e, ts)

/-- Member expression: a primary followed by field selections. -/
def parseMember : Nat → List Token → Except String (Expr × List Token)
  | 0, _ => Except.error "Parse error: out of fuel"
  | Nat.succ fuel, ts =>
    (match parsePrimary fuel ts with
     | Except.error e => Except.error e
     | Except.ok (e, rest) => parseSelLoop fuel e rest)

/-- Full expression: a member, optionally compared with `==`. -/
def parseExpr : Nat → List Token → Except String (Expr × List Token)
  | 0, _ => Except.error "Parse error: out of fuel"
  | Nat.succ fuel, ts =>
    (match parseMember fuel ts with
     | Except.error e => Except.error e
     | Except.ok (a, Token.eqeq :: rest) =>
       (match parseMember fuel rest with
        | Except.error e => Except.error e
        | Except.ok (b, rest2) => Except.ok (Expr.eq a b, rest2))
     | Except.ok (a, rest) => Except.ok (a, rest))

end

/-- The parse stage (`e.Parse`): tokenize the whole text and parse it as one
expression, requiring all input to be consumed. -/
def parse (s : String) : Except String Expr :=
  match tokenize (s.length + 1) s.data with
  | Except.error e => Except.error e
  | Except.ok ts =>
    match parseExpr (4 * ts.length + 8) ts with
    | Except.error e => Except.error e
    | Except.ok (e, []) => Except.ok e
    | Except.ok (_, _ :: _) => Except.error "Parse error: unexpected trailing input"

/-- Looks up an identifier declaration (`decls.NewIdent`) by name. -/
def lookupIdentDecl : List Decl → String → Option CelType
  | [], _ => none
  | Decl.ident n t :: rest, m => if n == m then some t else lookupIdentDecl rest m
  | Decl.func _ _ _ :: rest, m => lookupIdentDecl rest m

/-- Looks up a function declaration (`decls.NewFunction`) by name. -/
def lookupFuncDecl : List Decl → String → Option (List CelType × CelType)
  | [], _ => none
  | Decl.ident _ _ :: rest, m => lookupFuncDecl rest m
  | Decl.func n ps r :: rest, m =>
    if n == m then some (ps, r) else lookupFuncDecl rest m

/-- Assignability between CEL types: equal types, or either side dynamic. -/
def typesCompat (a b : CelType) : Bool :=
  a == b || a == CelType.dyn || b == CelType.dyn

mutual

/-- The check stage (`e.Check`): every identifier and function reference must
resolve against the environment's declarations and argument types must match
the declared signatures; returns the expression's static type. -/
def check (env : List Decl) : Expr → Except String CelType
  | Expr.lit (Value.str _) => Except.ok CelType.str
  | Expr.lit (Value.int _) => Except.ok CelType.int
  | Expr.lit (Value.bool _) => Except.ok CelType.bool
  | Expr.lit _ => Except.ok CelType.dyn
  | Expr.ident n =>
    (match lookupIdentDecl env n with
     | some t => Except.ok t
     | none => Except.error ("Check error: undeclared reference to " ++ n))
  | Expr.field e _ =>
    (match check env e with
     | Except.error m => Except.error m
     | Except.ok CelType.dyn => Except.ok CelType.dyn
     | Except.ok _ => Except.error "Check error: field selection on non-dynamic type")
  | Expr.eq a b =>
    (match check env a, check env b with
     | Except.error m, _ => Except.error m
     | _, Except.error m => Except.error m
     | Except.ok ta, Except.ok tb =>
       if typesCompat ta tb then Except.ok CelType.bool
       else Except.error "Check error: no matching overload for ==")
  | Expr.call f args =>
    (match lookupFuncDecl env f with
     | none => Except.error ("Check error: undeclared reference to " ++ f)
     | some (ps, ret) =>
       (match checkList env args with
        | Except.error m => Except.error m
        | Except.ok ts =>
          if ts.length == ps.length
              && (List.zip ts ps).all (fun p => typesCompat p.1 p.2) then
            Except.ok ret
          else Except.error ("Check error: no matching overload for " ++ f)))

/-- Checks each argument of a call in order. -/
def checkList (env : List Decl) : List Expr → Except String (List CelType)
  | [] => Except.ok []
  | e :: es =>
    (match check env e, checkList env es with
     | Except.ok t, Except.ok ts => Except.ok (t :: ts)
     | Except.error m, _ => Except.error m
     | _, Except.error m => Except.error m)

end

/-- Looks up an entry of a string-keyed association list (a Go map). -/
def lookupKey {α : Type} : List (String × α) → String → Option α
  | [], _ => none
  | (k, v) :: rest, m => if k == m then some v else lookupKey rest m

/-- A registered function implementation (`functions.Overload.Function`):
evaluated argument values in, an engine value out; `none` models a panic. -/
def FuncImpl : Type := List Value → Option Value

mutual

/-- The evaluation stage (`prg.Eval`): literals, the activation's identifier
bindings, field selection on map values, `==` on values, and calls into the
registered function implementations. An in-band error value returned by an
implementation surfaces as a runtime error. -/
def eval (funcs : List (String × FuncImpl)) (binds : List (String × Value)) :
    Expr → Except String Value
  | Expr.lit v => Except.ok v
  | Expr.ident n =>
    (match lookupKey binds n with
     | some v => Except.ok v
     | none => Except.error ("Eval error: no such attribute " ++ n))
  | Expr.field e f =>
    (match eval funcs binds e with
     | Except.error m => Except.error m
     | Except.ok (Value.map m) =>
       (match lookupKey m f with
        | some w => Except.ok w
        | none => Except.error ("Eval error: no such key " ++ f))
     | Except.ok _ =>
       Except.error ("Eval error: field selection on non-map value at " ++ f))
  | Expr.eq a b =>
    (match eval funcs binds a, eval funcs binds b with
     | Except.error m, _ => Except.error m
     | _, Except.error m => Except.error m
     | Except.ok va, Except.ok vb => Except.ok (Value.bool (beqV va vb)))
  | Expr.call f args =>
    (match evalList funcs binds args with
     | Except.error m => Except.error m
     | Except.ok vs =>
       (match lookupKey funcs f with
        | none => Except.error ("Eval error: unbound function " ++ f)
        | some impl =>
          (match impl vs with
           | none => Except.error ("Eval error: panic in function " ++ f)
           | some (Value.err m) => Except.error m
           | some v => Except.ok v)))

/-- Evaluates each argument of a call in order. -/
def evalList (funcs : List (String × FuncImpl)) (binds : List (String × Value)) :
    List Expr → Except String (List Value)
  | [] => Except.ok []
  | e :: es =>
    (match eval funcs binds e, evalList funcs binds es with
     | Except.ok v, Except.ok vs => Except.ok (v :: vs)
     | Except.error m, _ => Except.error m
     | _, Except.error m => Except.error m)

end

/-- The parse and check stages run in sequence, as both entry points do
(`e.Parse` then `e.Check`, each followed by a fatal error check). -/
def parseCheck (env : List Decl) (s : String) : Except String Expr :=
  match parse s with
  | Except.error m => Except.error m
  | Except.ok p =>
    match check env p with
    | Except.error m => Except.error m
    | Except.ok _ => Except.ok p

/-- The full pipeline on one expression text: parse, check, program creation
with the registered functions (`e.Program(c, funcs)`), and evaluation against
the activation `binds`. -/
def evalPipeline (env : List Decl) (funcs : List (String × FuncImpl))
    (binds : List (String × Value)) (s : String) : Except String Value :=
  match parseCheck env s with
  | Except.error m => Except.error m
  | Except.ok p => eval funcs binds p

/-- Scans for a close parenthesis reachable without crossing a newline: the
tail of an RE2 match of `\$\(.*\)` after the `$(`, where `.` does not match a
newline. -/
def hasCloseBeforeNewline : List Char → Bool
  | [] => false
  | ')' :: _ => true
  | '\n' :: _ => false
  | _ :: rest => hasCloseBeforeNewline rest

/-- Whether `\$\(.*\)` matches somewhere in the character list: an occurrence
of `$(` followed, with no intervening newline, by `)`. -/
def hasPlaceholderChars : List Char → Bool
  | [] => false
  | '$' :: '(' :: rest => hasCloseBeforeNewline rest || hasPlaceholderChars rest
  | _ :: rest => hasPlaceholderChars rest

/-- The placeholder test of `yaml.go` line 165:
`regexp.Match` of the unanchored pattern against the whole string value. -/
def hasPlaceholder (s : String) : Bool :=
  hasPlaceholderChars s.data

/-- Go's `strings.TrimPrefix`: remove `p` from the front of `s` when present,
otherwise return `s` unchanged (character-list form, which for the ASCII
delimiters used here coincides with Go's byte slicing). -/
def trimPrefix (s p : String) : String :=
  if p.data.isPrefixOf s.data then String.mk (s.data.drop p.data.length) else s

/-- Go's `strings.TrimSuffix`: remove `p` from the end of `s` when present,
otherwise return `s` unchanged. -/
def trimSuffix (s p : String) : String :=
  if p.data.isSuffixOf s.data then
    String.mk (s.data.take (s.data.length - p.data.length))
  else s

/-- The inner expression text fed to the pipeline (`yaml.go` lines 168-169):
trim one leading `$(` and one trailing `)`. -/
def innerText (s : String) : String :=
  trimSuffix (trimPrefix s "$(") ")"

/-- One iteration of the template scanner loop on one map entry: non-string
values and strings without a placeholder are skipped (left unchanged), a
matching string value has its inner text run through the pipeline, with the
raw result value replacing the entry's value; a pipeline failure aborts
(`log.Fatal`), modelled as `Except.error`. The key type is a parameter, as
the YAML map is `map[interface{}]interface{}`. -/
def replaceEntry {κ : Type} (env : List Decl) (funcs : List (String × FuncImpl))
    (binds : List (String × Value)) : κ × Value → Except String (κ × Value)
  | (k, Value.str s) =>
    if hasPlaceholder s then
      match evalPipeline env funcs binds (innerText s) with
      | Except.error m => Except.error m
      | Except.ok out => Except.ok (k, out)
    else Except.ok (k, Value.str s)
  | (k, v) => Except.ok (k, v)

/-- The scanner loop over all entries of the template map, with the in-memory
state made explicit: returns the document as it stands when the loop ends
(entries already processed carry their replacement, because `d[k] = out.Value()`
writes into the shared map one key at a time) together with the fatal error,
if any, that aborted the loop. -/
def scanSteps {κ : Type} (env : List Decl) (funcs : List (String × FuncImpl))
    (binds : List (String × Value)) :
    List (κ × Value) → List (κ × Value) × Option String
  | [] => ([], none)
  | e :: rest =>
    match replaceEntry env funcs binds e with
    | Except.error m => (e :: rest, some m)
    | Except.ok e2 =>
      match scanSteps env funcs binds rest with
      | (rest2, res) => (e2 :: rest2, res)

/-- The template expansion as observed at the program boundary: the expanded
document when every placeholder succeeded, or the fatal error of the first
failing placeholder — in which case no document is printed at all. -/
def expandTemplate {κ : Type} (env : List Decl) (funcs : List (String × FuncImpl))
    (binds : List (String × Value)) (d : List (κ × Value)) :
    Except String (List (κ × Value)) :=
  match scanSteps env funcs binds d with
  | (d2, none) => Except.ok d2
  | (_, some m) => Except.error m

/-- The committed form of one entry: its replacement when the scanner step
succeeds on it, the entry itself otherwise. -/
def committedEntry {κ : Type} (env : List Decl) (funcs : List (String × FuncImpl))
    (binds : List (String × Value)) (e : κ × Value) : κ × Value :=
  match replaceEntry env funcs binds e with
  | Except.ok e2 => e2
  | Except.error _ => e

/-- The activation of the template-mode program (`yaml.go` lines 185-189):
the parsed CloudEvent bound to `ce` and the fixed string constant bound to
`cat`. -/
def yamlBindings (cloudEvent : Value) : List (String × Value) :=
  [("ce", cloudEvent), ("cat", Value.str "🐱")]

/-- The default expression shared by both entry points. -/
def defaultExpr : String := "ce.type == \"com.example.someevent\""

/-- Modelled from the spec: the Template Scanner (§4.5) obtains the inner
expression text by stripping exactly one leading `$(` and exactly one
trailing `)` from the whole string value. Stated from the spec's words to be
compared with `innerText`, which is transcribed from the source. -/
def specStripOnce (s : String) : String :=
  let t := if ['$', '('].isPrefixOf s.data then String.mk (s.data.drop 2) else s
  if [')'].isSuffixOf t.data then String.mk (t.data.take (t.data.length - 1)) else t

mutual

/-- Helper for the round-trip law: the adapter's inverse recovers any
directly-convertible native value. -/
theorem fromEngineValue_toEngineValue (v : Native) :
    fromEngineValue (toEngineValue v) = some v := by
  cases v with
  | str s => rfl
  | int n => rfl
  | bool b => rfl
  | map m =>
    simp [toEngineValue, fromEngineValue, fromEngineFields_toEngineFields m]

/-- Helper for the round-trip law, fieldwise over a native map. -/
theorem fromEngineFields_toEngineFields (m : List (String × Native)) :
    fromEngineFields (toEngineFields m) = some m := by
  cases m with
  | nil => rfl
  | cons kv rest =>
    cases kv with
    | mk k v =>
      simp [toEngineFields, fromEngineFields, fromEngineValue_toEngineValue v,
        fromEngineFields_toEngineFields rest]

end

/-- C8: for every directly-convertible native value (strings, integers,
booleans, and mappings whose leaves are such scalars), converting to the
engine's value representation and back yields the same value:
`fromEngineValue (toEngineValue v) = v`. -/
theorem value_adapter_round_trip (v : Native) :
    fromEngineValue (toEngineValue v) = some v :=
  fromEngineValue_toEngineValue v

/-- C9: running the full parse, check, compile, evaluate pipeline of the
single-expression entry point on `ce.type == "com.example.someevent"` yields
`true` for the input document with `type` equal to `com.example.someevent`
and `false` for the document with `type` equal to `x`, whatever functions are
registered. -/
theorem end_to_end_default_expr :
    (∀ funcs : List (String × FuncImpl),
      evalPipeline mainEnvDecls funcs
        [("ce", Value.map [("type", Value.str "com.example.someevent")])] defaultExpr
      = Except.ok (Value.bool true))
    ∧ (∀ funcs : List (String × FuncImpl),
      evalPipeline mainEnvDecls funcs
        [("ce", Value.map [("type", Value.str "x")])] defaultExpr
      = Except.ok (Value.bool false)) :=
  ⟨fun _ => rfl, fun _ => rfl⟩

/-- C6 counterexample: the single-expression entry point's environment does
not declare the `cat` string identifier, nor the pull-request function
signature, so the claimed declaration set does not hold for every entry
point. -/
theorem single_mode_env_missing_decls :
    Decl.ident "cat" CelType.str ∉ mainEnvDecls ∧
    Decl.func "pr" [CelType.str, CelType.str, CelType.int] CelType.dyn ∉ mainEnvDecls := by
  decide

/-- C6 amended: the template-mode environment declares exactly the event
identifier `ce : dyn`, the constant identifier `cat : string`, and the three
function signatures `commit(string,string,string) -> dyn`,
`pr(string,string,int) -> dyn` and `collaborator(string,string,string) -> bool`;
the single-expression environment declares only `ce`, `commit` and
`collaborator` (no `cat`, no pull-request function). -/
theorem env_decls_per_entry_point :
    (Decl.ident "ce" CelType.dyn ∈ yamlEnvDecls
      ∧ Decl.ident "cat" CelType.str ∈ yamlEnvDecls
      ∧ Decl.func "commit" [CelType.str, CelType.str, CelType.str] CelType.dyn ∈ yamlEnvDecls
      ∧ Decl.func "pr" [CelType.str, CelType.str, CelType.int] CelType.dyn ∈ yamlEnvDecls
      ∧ Decl.func "collaborator" [CelType.str, CelType.str, CelType.str] CelType.bool ∈ yamlEnvDecls
      ∧ yamlEnvDecls.length = 5)
    ∧ (Decl.ident "ce" CelType.dyn ∈ mainEnvDecls
      ∧ Decl.func "commit" [CelType.str, CelType.str, CelType.str] CelType.dyn ∈ mainEnvDecls
      ∧ Decl.func "collaborator" [CelType.str, CelType.str, CelType.str] CelType.bool ∈ mainEnvDecls
      ∧ mainEnvDecls.length = 3) := by
  decide

/-- C5: every external function binding invoked with an argument count other
than 3 returns the in-band `invalid args` error value, whatever the argument
values are (so before any argument is extracted) and whatever the external
lookups would do; the result is `some _`, never the panic outcome. -/
theorem arity_mismatch_yields_error {α β : Type}
    (marshalC : α → Except String String)
    (unmarshalC : String → Except String (List (String × Native)))
    (getCommit : String → String → String → Except String α)
    (marshalP : β → Except String String)
    (unmarshalP : String → Except String (List (String × Native)))
    (getPR : String → String → Int → Except String β)
    (isCollab : String → String → String → Except String Bool)
    (values : List Value) (h : values.length ≠ 3) :
    commitFunction marshalC unmarshalC getCommit values = some (Value.err "invalid args")
    ∧ prFunction marshalP unmarshalP getPR values = some (Value.err "invalid args")
    ∧ collaboratorFunction isCollab values = some (Value.err "invalid args") := by
  refine ⟨?_, ?_, ?_⟩ <;>
    simp [commitFunction, prFunction, collaboratorFunction, h]

/-- C5 witness: the three bindings on an empty argument list. -/
theorem arity_mismatch_yields_error_witness :
    ([] : List Value).length ≠ 3
    ∧ commitFunction (fun (_ : Unit) => Except.error "m")
        (fun _ => Except.error "m") (fun _ _ _ => Except.error "m") []
      = some (Value.err "invalid args")
    ∧ prFunction (fun (_ : Unit) => Except.error "m")
        (fun _ => Except.error "m") (fun _ _ _ => Except.error "m") []
      = some (Value.err "invalid args")
    ∧ collaboratorFunction (fun _ _ _ => Except.error "m") []
      = some (Value.err "invalid args") := by
  have h := arity_mismatch_yields_error
    (fun (_ : Unit) => Except.error "m") (fun _ => Except.error "m")
    (fun _ _ _ => Except.error "m")
    (fun (_ : Unit) => Except.error "m") (fun _ => Except.error "m")
    (fun _ _ _ => Except.error "m")
    (fun _ _ _ => Except.error "m")
    [] (by decide)
  exact ⟨by decide, h.1, h.2.1, h.2.2⟩

/-- C4: when the external lookup behind a binding fails with message `m`, the
binding returns the in-band error value carrying `m` (as `types.NewErr` of
`err.Error()` does); the result is `some _`, so the failure never escapes as
an unhandled fault. -/
theorem lookup_failure_becomes_error_value {α β : Type}
    (marshalC : α → Except String String)
    (unmarshalC : String → Except String (List (String × Native)))
    (getCommit : String → String → String → Except String α)
    (marshalP : β → Except String String)
    (unmarshalP : String → Except String (List (String × Native)))
    (getPR : String → String → Int → Except String β)
    (isCollab : String → String → String → Except String Bool)
    (o r v u m : String) (n : Int)
    (hc : getCommit o r v = Except.error m)
    (hp : getPR o r n = Except.error m)
    (hb : isCollab o r u = Except.error m) :
    commitFunction marshalC unmarshalC getCommit
      [Value.str o, Value.str r, Value.str v] = some (Value.err m)
    ∧ prFunction marshalP unmarshalP getPR
      [Value.str o, Value.str r, Value.int n] = some (Value.err m)
    ∧ collaboratorFunction isCollab
      [Value.str o, Value.str r, Value.str u] = some (Value.err m) := by
  refine ⟨?_, ?_, ?_⟩ <;>
    simp [commitFunction, prFunction, collaboratorFunction, asString, asInt,
      hc, hp, hb]

/-- C4 witness: concrete always-failing lookups through the three bindings. -/
theorem lookup_failure_becomes_error_value_witness :
    (fun (_ _ _ : String) => (Except.error "boom" : Except String Unit)) "o" "r" "v"
      = Except.error "boom"
    ∧ commitFunction (fun (_ : Unit) => Except.error "x") (fun _ => Except.error "x")
        (fun _ _ _ => Except.error "boom")
        [Value.str "o", Value.str "r", Value.str "v"] = some (Value.err "boom")
    ∧ prFunction (fun (_ : Unit) => Except.error "x") (fun _ => Except.error "x")
        (fun _ _ _ => Except.error "boom")
        [Value.str "o", Value.str "r", Value.int 7] = some (Value.err "boom")
    ∧ collaboratorFunction (fun _ _ _ => Except.error "boom")
        [Value.str "o", Value.str "r", Value.str "u"] = some (Value.err "boom") := by
  have h := lookup_failure_becomes_error_value
    (fun (_ : Unit) => Except.error "x") (fun _ => Except.error "x")
    (fun _ _ _ => (Except.error "boom" : Except String Unit))
    (fun (_ : Unit) => Except.error "x") (fun _ => Except.error "x")
    (fun _ _ _ => (Except.error "boom" : Except String Unit))
    (fun _ _ _ => (Except.error "boom" : Except String Bool))
    "o" "r" "v" "u" "boom" 7 rfl rfl rfl
  exact ⟨rfl, h.1, h.2.1, h.2.2⟩

/-- C7: in the adapter's fallback path, a failure of the serialize step or of
the deserialize step yields the typed conversion error value carrying the
failure message (never a panic: `dynamicValue` is total), and the evaluator
surfaces an in-band error value returned by a function implementation as an
evaluation error. -/
theorem dynamic_value_codec_failure {α : Type}
    (marshal : α → Except String String)
    (unmarshal : String → Except String (List (String × Native)))
    (i : α) (b m : String) :
    (marshal i = Except.error m → dynamicValue marshal unmarshal i = Value.err m)
    ∧ (marshal i = Except.ok b → unmarshal b = Except.error m →
        dynamicValue marshal unmarshal i = Value.err m)
    ∧ (∀ (f : String) (impl : FuncImpl) (binds : List (String × Value))
        (args : List Expr) (vs : List Value),
        evalList [(f, impl)] binds args = Except.ok vs →
        impl vs = some (Value.err m) →
        eval [(f, impl)] binds (Expr.call f args) = Except.error m) := by
  refine ⟨?_, ?_, ?_⟩
  · intro h
    simp [dynamicValue, h]
  · intro h1 h2
    simp [dynamicValue, h1, h2]
  · intro f impl binds args vs hargs himpl
    simp [eval, hargs, lookupKey, himpl]

/-- C7 witness: a failing serialize step, a failing deserialize step, and the
evaluator surfacing the resulting error value. -/
theorem dynamic_value_codec_failure_witness :
    ((fun (_ : Unit) => (Except.error "marshal failed" : Except String String)) ()
        = Except.error "marshal failed"
      ∧ dynamicValue (fun (_ : Unit) => Except.error "marshal failed")
          (fun _ => Except.error "unmarshal failed") () = Value.err "marshal failed")
    ∧ ((fun (_ : Unit) => (Except.ok "{}" : Except String String)) ()
        = Except.ok "{}"
      ∧ dynamicValue (fun (_ : Unit) => Except.ok "{}")
          (fun _ => Except.error "unmarshal failed") () = Value.err "unmarshal failed")
    ∧ eval [("commit", fun _ => some (Value.err "marshal failed"))] []
        (Expr.call "commit" []) = Except.error "marshal failed" := by
  refine ⟨⟨rfl, ?_⟩, ⟨rfl, ?_⟩, ?_⟩
  · exact (dynamic_value_codec_failure (fun (_ : Unit) => Except.error "marshal failed")
      (fun _ => Except.error "unmarshal failed") () "b" "marshal failed").1 rfl
  · exact ((dynamic_value_codec_failure (fun (_ : Unit) => Except.ok "{}")
      (fun _ => Except.error "unmarshal failed") () "{}" "unmarshal failed").2.1) rfl rfl
  · exact ((dynamic_value_codec_failure (fun (_ : Unit) => Except.ok "{}")
      (fun _ => Except.error "unmarshal failed") () "{}" "marshal failed").2.2)
      "commit" (fun _ => some (Value.err "marshal failed")) [] [] [] rfl rfl

/-- C1: a string value with no placeholder match is left unchanged at its key
by the scanner, and a string value exactly `$(true)` is replaced at its key
by the boolean value `true` — the raw evaluated value, which is not the
string `"true"`. -/
theorem template_placeholder_detection :
    (∀ {κ : Type} (env : List Decl) (funcs : List (String × FuncImpl))
        (binds : List (String × Value)) (k : κ) (s : String),
      hasPlaceholder s = false →
      replaceEntry env funcs binds (k, Value.str s) = Except.ok (k, Value.str s))
    ∧ (∀ (funcs : List (String × FuncImpl)) (ce : Value) (k : String),
      expandTemplate yamlEnvDecls funcs (yamlBindings ce) [(k, Value.str "$(true)")]
        = Except.ok [(k, Value.bool true)])
    ∧ Value.bool true ≠ Value.str "true" := by
  refine ⟨?_, ?_, ?_⟩
  · intro κ env funcs binds k s h
    simp [replaceEntry, h]
  · intro funcs ce k
    rfl
  · intro h
    cases h

/-- C1 witness: the non-matching string `hello` is left unchanged. -/
theorem template_placeholder_detection_witness :
    hasPlaceholder "hello" = false
    ∧ replaceEntry yamlEnvDecls [] [] ("k", Value.str "hello")
        = Except.ok ("k", Value.str "hello") :=
  ⟨rfl, template_placeholder_detection.1 yamlEnvDecls [] [] "k" "hello" rfl⟩

/-- C3: the text evaluated for a matching string value is obtained by
stripping exactly one leading `$(` and one trailing `)` from the whole value
(`innerText` agrees with the spec-side stripping rule on every string, also
when `$(` is not a prefix or `)` is not a suffix), and the scanner feeds
exactly that text through the pipeline, substituting its raw result. -/
theorem inner_text_strip_rule :
    (∀ s : String, innerText s = specStripOnce s)
    ∧ (∀ {κ : Type} (env : List Decl) (funcs : List (String × FuncImpl))
        (binds : List (String × Value)) (k : κ) (s : String),
      hasPlaceholder s = true →
      replaceEntry env funcs binds (k, Value.str s)
        = (evalPipeline env funcs binds (innerText s)).map (fun v => (k, v))) := by
  constructor
  · intro s
    have h1 : "$(".data = ['$', '('] := rfl
    have h2 : ")".data = [')'] := rfl
    simp [innerText, trimPrefix, trimSuffix, specStripOnce, h1, h2]
  · intro κ env funcs binds k s h
    cases hE : evalPipeline env funcs binds (innerText s) with
    | error m => simp [replaceEntry, h, hE, Except.map]
    | ok v => simp [replaceEntry, h, hE, Except.map]

/-- C3 witness: the matching string `abc$(x)`, where `$(` is not a prefix, is
evaluated as the text `abc$(x` — one trailing `)` stripped, nothing else. -/
theorem inner_text_strip_rule_witness :
    hasPlaceholder "abc$(x)" = true
    ∧ innerText "abc$(x)" = "abc$(x"
    ∧ replaceEntry yamlEnvDecls [] [] ("k", Value.str "abc$(x)")
        = (evalPipeline yamlEnvDecls [] [] (innerText "abc$(x)")).map
            (fun v => ("k", v)) :=
  ⟨rfl, rfl, inner_text_strip_rule.2 yamlEnvDecls [] [] "k" "abc$(x)" rfl⟩

/-- Helper: the boundary result is the abort error exactly when the scanner
loop stopped with that fatal error. -/
theorem expandTemplate_error_iff {κ : Type} (env : List Decl)
    (funcs : List (String × FuncImpl)) (binds : List (String × Value))
    (d : List (κ × Value)) (m : String) :
    expandTemplate env funcs binds d = Except.error m
      ↔ (scanSteps env funcs binds d).2 = some m := by
  unfold expandTemplate
  cases hs : scanSteps env funcs binds d with
  | mk d2 res => cases res <;> simp

/-- C2: if some key of the template document holds a matching string whose
inner text fails to parse or check, the whole expansion run aborts with a
fatal error and no expanded document is returned. -/
theorem parse_check_failure_aborts_run {κ : Type} (env : List Decl)
    (funcs : List (String × FuncImpl)) (binds : List (String × Value))
    (d : List (κ × Value)) (k : κ) (s : String) (msg : String)
    (hmem : (k, Value.str s) ∈ d)
    (hph : hasPlaceholder s = true)
    (hfail : parseCheck env (innerText s) = Except.error msg) :
    ∃ m, expandTemplate env funcs binds d = Except.error m := by
  have hre : replaceEntry env funcs binds (k, Value.str s) = Except.error msg := by
    simp [replaceEntry, hph, evalPipeline, hfail]
  induction d with
  | nil => cases hmem
  | cons e rest ih =>
    rcases List.mem_cons.mp hmem with he | hrest
    · refine ⟨msg, (expandTemplate_error_iff env funcs binds _ msg).mpr ?_⟩
      simp [scanSteps, ← he, hre]
    · cases hr : replaceEntry env funcs binds e with
      | error m2 =>
        exact ⟨m2, (expandTemplate_error_iff env funcs binds _ m2).mpr
          (by simp [scanSteps, hr])⟩
      | ok e2 =>
        obtain ⟨m, hm⟩ := ih hrest
        refine ⟨m, (expandTemplate_error_iff env funcs binds _ m).mpr ?_⟩
        have h2 := (expandTemplate_error_iff env funcs binds rest m).mp hm
        cases hsr : scanSteps env funcs binds rest with
        | mk r2 res =>
          rw [hsr] at h2
          simp at h2
          simp [scanSteps, hr, hsr, h2]

/-- C2 witness: a one-key template whose placeholder references the
undeclared identifier `foo`; the check stage fails and the run aborts. -/
theorem parse_check_failure_aborts_run_witness :
    hasPlaceholder "$(foo)" = true
    ∧ parseCheck yamlEnvDecls (innerText "$(foo)")
        = Except.error "Check error: undeclared reference to foo"
    ∧ ∃ m, expandTemplate yamlEnvDecls [] (yamlBindings Value.null)
        [(("k" : String), Value.str "$(foo)")] = Except.error m :=
  ⟨rfl, rfl,
    parse_check_failure_aborts_run yamlEnvDecls [] (yamlBindings Value.null)
      [("k", Value.str "$(foo)")] "k" "$(foo)"
      "Check error: undeclared reference to foo"
      (List.mem_singleton.mpr rfl) rfl rfl⟩

/-- C10: placeholder results are committed into the shared template map one
key at a time: when a later placeholder fails, every entry processed before
it already holds its replacement in the in-memory document at the moment the
run aborts, while the failing entry and the unprocessed ones still hold their
original values — the expansion is not atomic, and only the abort prevents
the partially updated document from being returned. -/
theorem replacements_committed_before_abort {κ : Type} (env : List Decl)
    (funcs : List (String × FuncImpl)) (binds : List (String × Value))
    (d1 d2 : List (κ × Value)) (e : κ × Value) (m : String)
    (h1 : ∀ x ∈ d1, ∃ y, replaceEntry env funcs binds x = Except.ok y)
    (h2 : replaceEntry env funcs binds e = Except.error m) :
    scanSteps env funcs binds (d1 ++ e :: d2)
      = (d1.map (committedEntry env funcs binds) ++ e :: d2, some m)
    ∧ expandTemplate env funcs binds (d1 ++ e :: d2) = Except.error m := by
  have hscan : scanSteps env funcs binds (d1 ++ e :: d2)
      = (d1.map (committedEntry env funcs binds) ++ e :: d2, some m) := by
    induction d1 with
    | nil => simp [scanSteps, h2]
    | cons x rest ih =>
      obtain ⟨y, hy⟩ := h1 x (List.mem_cons_self x rest)
      have ih2 := ih (fun z hz => h1 z (List.mem_cons_of_mem x hz))
      simp [scanSteps, hy, ih2, committedEntry]
  exact ⟨hscan,
    (expandTemplate_error_iff env funcs binds _ m).mpr (by rw [hscan])⟩

/-- C10 witness: in a three-key template whose second placeholder fails to
check, the first placeholder's replacement is already committed when the run
aborts and the remaining entries are untouched. -/
theorem replacements_committed_before_abort_witness :
    replaceEntry yamlEnvDecls [] (yamlBindings Value.null)
        (("b" : String), Value.str "$(foo)")
      = Except.error "Check error: undeclared reference to foo"
    ∧ scanSteps yamlEnvDecls [] (yamlBindings Value.null)
        ([(("a" : String), Value.str "$(true)")]
          ++ ("b", Value.str "$(foo)") :: [("c", Value.str "later")])
      = ([("a", Value.bool true), ("b", Value.str "$(foo)"),
          ("c", Value.str "later")],
         some "Check error: undeclared reference to foo")
    ∧ expandTemplate yamlEnvDecls [] (yamlBindings Value.null)
        ([(("a" : String), Value.str "$(true)")]
          ++ ("b", Value.str "$(foo)") :: [("c", Value.str "later")])
      = Except.error "Check error: undeclared reference to foo" := by
  have h := replacements_committed_before_abort yamlEnvDecls []
    (yamlBindings Value.null)
    [("a", Value.str "$(true)")] [("c", Value.str "later")]
    ("b", Value.str "$(foo)") "Check error: undeclared reference to foo"
    (fun x hx => by
      rw [List.mem_singleton.mp hx]
      exact ⟨("a", Value.bool true), rfl⟩)
    rfl
  refine ⟨rfl, ?_, h.2⟩
  rw [h.1]
  rfl
